import Mathlib

/-!
Verification of the AI-State-Analyzer repository core: the hybrid state
detector, the recording-to-script converter, the timed replayer, the
snapshot store of the session recorder, the snapshot restore operation,
and the schema validator.  Each Python function named below is shallowly
embedded as an executable Lean definition; machine floats that only carry
event timestamps and wait durations are modelled as rationals.
-/

namespace AIStateAnalyzer

/-! ## Script converter (playwright_recorder/convert_to_script.py)

A raw recorded event, as produced by the recording script injected by
`record_session.py`: one of `click`, `scroll`, `keypress`, `mousemove`,
each carrying a timestamp in seconds from recording start. -/

inductive RawEvent where
  | click (selector : String) (x y : Int) (timestamp : ℚ)
  | scroll (scrollY scrollX : ℚ) (timestamp : ℚ)
  | keypress (key : String) (timestamp : ℚ)
  | mousemove (x y : Int) (timestamp : ℚ)
  deriving DecidableEq, Repr

/-- The `timestamp` field of a raw event. -/
def RawEvent.timestamp : RawEvent → ℚ
  | .click _ _ _ t => t
  | .scroll _ _ t => t
  | .keypress _ t => t
  | .mousemove _ _ t => t

/-- A normalized action of an action script: the converter emits `click`,
`scroll` and `keypress` actions, each with an optional `wait` field. -/
inductive Action where
  | click (selector : String) (x y : Int) (wait : Option ℚ)
  | scroll (scrollY scrollX : ℚ) (wait : Option ℚ)
  | keypress (key : String) (wait : Option ℚ)
  deriving DecidableEq, Repr

/-- Bare modifier keys dropped by the converter
(`convert_to_script.py`, line 70). -/
def modifierKeys : List String := ["Control", "Meta", "Shift", "Alt"]

/-- Python `round(x, 1)`: rounding to one decimal place.  The tie-breaking
direction of the float rounding is irrelevant to every claim below. -/
def round1 (q : ℚ) : ℚ := (round (q * 10) : ℤ) / 10

/-- One iteration of the event loop of `convert_recording_to_script`
(lines 33-78): state is the pair (actions so far, `last_time`). -/
def convertStep (st : List Action × ℚ) (e : RawEvent) : List Action × ℚ :=
  let actions := st.1
  let lastTime := st.2
  let ts := e.timestamp
  let waitTime : ℚ := if lastTime > 0 then ts - lastTime else 0
  let wait : Option ℚ := if waitTime > 1/10 then some (round1 waitTime) else none
  match e with
  | .mousemove _ _ _ => (actions, lastTime)
  | .click sel x y _ => (actions ++ [Action.click sel x y wait], ts)
  | .scroll sy sx _ => (actions ++ [Action.scroll sy sx wait], ts)
  | .keypress k _ =>
      if k ∈ modifierKeys then (actions, lastTime)
      else (actions ++ [Action.keypress k wait], ts)

/-- The converter `convert_recording_to_script` (file-IO stripped): fold the
event loop over the recording starting from no actions and `last_time = 0`. -/
def convert_recording_to_script (events : List RawEvent) : List Action :=
  (events.foldl convertStep ([], 0)).1

/-- An action is admissible for the converter output when it is not a
keypress on a bare modifier key. -/
def admissibleAction (a : Action) : Prop :=
  ∀ k w, a = Action.keypress k w → k ∉ modifierKeys

/-- The converter loop only ever appends admissible actions. -/
theorem convert_foldl_admissible :
    ∀ (events : List RawEvent) (st : List Action × ℚ),
      (∀ a ∈ st.1, admissibleAction a) →
      ∀ a ∈ (List.foldl convertStep st events).1, admissibleAction a := by
  intro events
  induction events with
  | nil => intro st h a ha; exact h a ha
  | cons e rest ih =>
      intro st h a ha
      rw [List.foldl_cons] at ha
      refine ih (convertStep st e) ?_ a ha
      intro b hb
      cases e with
      | mousemove x y t => exact h b hb
      | click sel x y t =>
          rcases List.mem_append.1 hb with hb | hb
          · exact h b hb
          · intro k w hk
            simp only [List.mem_singleton] at hb
            subst hb; cases hk
      | scroll sy sx t =>
          rcases List.mem_append.1 hb with hb | hb
          · exact h b hb
          · intro k w hk
            simp only [List.mem_singleton] at hb
            subst hb; cases hk
      | keypress k t =>
          by_cases hmod : k ∈ modifierKeys
          · simp only [convertStep, hmod, if_pos] at hb
            exact h b hb
          · simp only [convertStep, hmod, if_neg, not_false_iff] at hb
            rcases List.mem_append.1 hb with hb | hb
            · exact h b hb
            · intro k2 w hk
              simp only [List.mem_singleton] at hb
              subst hb
              cases hk
              exact hmod

/-- C9: the converter drops every mousemove event without touching the
loop state, drops every bare-modifier keypress without touching the loop
state (so neither can serve as the previous retained action of a later
wait computation), and no keypress action on a bare modifier key ever
appears in the output. -/
theorem converter_drops_mousemove_and_modifier_keypresses :
    (∀ (st : List Action × ℚ) (x y : Int) (t : ℚ),
        convertStep st (RawEvent.mousemove x y t) = st) ∧
    (∀ (st : List Action × ℚ) (k : String) (t : ℚ), k ∈ modifierKeys →
        convertStep st (RawEvent.keypress k t) = st) ∧
    (∀ (events : List RawEvent) (k : String) (w : Option ℚ),
        Action.keypress k w ∈ convert_recording_to_script events →
        k ∉ modifierKeys) := by
  refine ⟨fun st x y t => rfl, fun st k t hk => ?_, fun events k w hmem => ?_⟩
  · simp [convertStep, hk]
  · exact convert_foldl_admissible events ([], 0) (by intro a ha; cases ha)
      (Action.keypress k w) hmem k w rfl

/-- Witness for C9 at concrete inputs. -/
theorem converter_drops_mousemove_and_modifier_keypresses_witness :
    convertStep ([], 0) (RawEvent.keypress "Shift" 3) = ([], 0) ∧
    "a" ∉ modifierKeys := by
  constructor
  · exact converter_drops_mousemove_and_modifier_keypresses.2.1 ([], 0) "Shift" 3
      (by decide)
  · exact converter_drops_mousemove_and_modifier_keypresses.2.2
      [RawEvent.keypress "a" 1] "a" none
      (by norm_num [convert_recording_to_script, convertStep, modifierKeys]
          decide)

/-- C2: on the raw event list [click at 0.0, mousemove at 0.05, mousemove at
0.1, click at 0.5] the converter emits two click actions and omits the wait
on BOTH, because the first retained click's timestamp 0.0 leaves `last_time`
at its initial value 0, which the guard `last_time > 0` treats as "no
previous action"; the output differs from the documented expectation
[click, click with wait 0.5].  Shifting the same recording by one second
(so that the first click's timestamp is positive) yields exactly the
documented wait of 0.5 against the prior retained click. -/
theorem convert_example_zero_start_omits_second_wait :
    convert_recording_to_script
      [RawEvent.click "#btn" 10 20 0, RawEvent.mousemove 1 1 (1/20),
       RawEvent.mousemove 2 2 (1/10), RawEvent.click "#btn" 10 20 (1/2)] =
      [Action.click "#btn" 10 20 none, Action.click "#btn" 10 20 none] ∧
    convert_recording_to_script
      [RawEvent.click "#btn" 10 20 0, RawEvent.mousemove 1 1 (1/20),
       RawEvent.mousemove 2 2 (1/10), RawEvent.click "#btn" 10 20 (1/2)] ≠
      [Action.click "#btn" 10 20 none,
       Action.click "#btn" 10 20 (some (1/2))] ∧
    convert_recording_to_script
      [RawEvent.click "#btn" 10 20 1, RawEvent.mousemove 1 1 (21/20),
       RawEvent.mousemove 2 2 (11/10), RawEvent.click "#btn" 10 20 (3/2)] =
      [Action.click "#btn" 10 20 none,
       Action.click "#btn" 10 20 (some (1/2))] := by
  refine ⟨?_, ?_, ?_⟩
  · norm_num [convert_recording_to_script, convertStep, RawEvent.timestamp,
      round1]
  · norm_num [convert_recording_to_script, convertStep, RawEvent.timestamp,
      round1]
    simp
  · norm_num [convert_recording_to_script, convertStep, RawEvent.timestamp,
      round1, modifierKeys]

/-! ## Hybrid state detector (panel_generator.py, generated getCurrentState)

The generated JavaScript iterates the schema's states in order.  For each
state it first evaluates the state's `detection_condition` (a boolean
expression over page variables resolved with `findVariable`) inside a
try block, returning the state id when the expression evaluates to true;
an exception is caught and ignored.  It then evaluates the conjunction of
the state's compiled DOM checks inside a second try block, returning the
state id when they hold; an exception is again caught.  When no state
returns, it falls back to `currentTrackedState`, the caller-seeded
current state.  Evaluating a condition or a DOM conjunction in a live
page yields one of three outcomes, which the page context records. -/

inductive Outcome where
  | matched
  | failed
  | raised
  deriving DecidableEq, Repr

/-- One compiled DOM check of the generated detector
(`checkVisible`, `checkHidden`, `checkClass`, `checkText`). -/
inductive DomCheck where
  | visible (selector : String)
  | hidden (selector : String)
  | hasClass (selector cls : String)
  | textContains (selector text : String)
  deriving DecidableEq, Repr

/-- A state definition of the schema, restricted to the fields the
detector reads: id, name, the raw `detection_condition` text (none when
the schema field is empty, in which case no variable check is emitted),
and the compiled list of DOM checks (empty when `dom_detection` yields no
checks, in which case no DOM check is emitted). -/
structure StateDef where
  id : Int
  name : String
  detection_condition : Option String
  dom_detection : List DomCheck
  deriving DecidableEq, Repr

/-- A live page context: the outcome of evaluating a condition expression
(after `findVariable` lookups) and the outcome of evaluating a compiled
DOM-check conjunction. -/
structure PageContext where
  condOutcome : String → Outcome
  domOutcome : List DomCheck → Outcome

/-- The variable-based branch of one state returns the state id exactly
when the condition text is present and evaluates to true. -/
def varMatched (ctx : PageContext) (s : StateDef) : Bool :=
  match s.detection_condition with
  | none => false
  | some c => ctx.condOutcome c = Outcome.matched

/-- The DOM-based branch of one state returns the state id exactly when
at least one check was emitted and the conjunction evaluates to true. -/
def domMatched (ctx : PageContext) (s : StateDef) : Bool :=
  if s.dom_detection.isEmpty then false
  else ctx.domOutcome s.dom_detection = Outcome.matched

/-- The generated `getCurrentState` (panel_generator.py lines 443-522):
walk the states in schema order; return the first id whose variable
branch or, failing that, DOM branch matches; otherwise return the
caller-seeded current state. -/
def getCurrentState : List StateDef → PageContext → Int → Int
  | [], _, currentTrackedState => currentTrackedState
  | s :: rest, ctx, currentTrackedState =>
      if varMatched ctx s then s.id
      else if domMatched ctx s then s.id
      else getCurrentState rest ctx currentTrackedState

/-- A state matches when either of its two branches returns. -/
def stateMatches (ctx : PageContext) (s : StateDef) : Bool :=
  varMatched ctx s || domMatched ctx s

/-- The recorder-side page probe: values of the hard-coded page variables
read by `SessionRecorder._detect_current_state`, with the defaults its
`typeof` guards supply (`stage` -1, `isHellMode` false,
`notificationCount` 0). -/
structure RecorderContext where
  stage : Int
  isHellMode : Bool
  notificationCount : ℚ
  floodOverlayVisible : Bool

/-- `SessionRecorder._detect_current_state` (record_session.py lines
324-362): walk the schema states in order with hard-coded per-id probes;
no state matching yields the seeded sentinel -1 ("not yet started"). -/
def detect_current_state : List StateDef → RecorderContext → Int
  | [], _ => -1
  | s :: rest, c =>
      if s.id = 5 then
        if c.notificationCount ≥ 150 ∧ c.floodOverlayVisible = true then 5
        else detect_current_state rest c
      else if s.id = 4 then
        if c.stage = 4 ∧ c.isHellMode = true then 4
        else detect_current_state rest c
      else
        if c.stage = s.id then s.id
        else detect_current_state rest c

/-- C1: the hybrid detector returns the caller-seeded current state or an
id of the schema, never anything else; when no state's variable branch or
DOM branch matches it returns the seeded current state unchanged; and the
recorder-side detector likewise returns a schema id or its seeded
sentinel -1. -/
theorem detector_returns_schema_id_or_previous :
    (∀ (schema : List StateDef) (ctx : PageContext) (prev : Int),
        getCurrentState schema ctx prev = prev ∨
        getCurrentState schema ctx prev ∈ schema.map StateDef.id) ∧
    (∀ (schema : List StateDef) (ctx : PageContext) (prev : Int),
        (∀ s ∈ schema, varMatched ctx s = false ∧ domMatched ctx s = false) →
        getCurrentState schema ctx prev = prev) ∧
    (∀ (schema : List StateDef) (c : RecorderContext),
        detect_current_state schema c = -1 ∨
        detect_current_state schema c ∈ schema.map StateDef.id) := by
  refine ⟨fun schema ctx prev => ?_, fun schema ctx prev h => ?_,
    fun schema c => ?_⟩
  · induction schema with
    | nil => exact Or.inl rfl
    | cons s rest ih =>
        by_cases hv : varMatched ctx s
        · right
          simp [getCurrentState, hv]
        · by_cases hd : domMatched ctx s
          · right
            simp [getCurrentState, hv, hd]
          · rcases ih with heq | hmem
            · left
              simp [getCurrentState, hv, hd, heq]
            · right
              simp only [getCurrentState, hv, hd, if_false, List.map_cons]
              exact List.mem_cons_of_mem _ hmem
  · induction schema with
    | nil => rfl
    | cons s rest ih =>
        obtain ⟨hv, hd⟩ := h s (List.mem_cons_self s rest)
        simp only [getCurrentState, hv, hd, if_false]
        exact ih fun t ht => h t (List.mem_cons_of_mem s ht)
  · induction schema with
    | nil => exact Or.inl rfl
    | cons s rest ih =>
        simp only [detect_current_state, List.map_cons]
        by_cases h5 : s.id = 5
        · by_cases hc : c.notificationCount ≥ 150 ∧ c.floodOverlayVisible = true
          · right
            simp [h5, hc]
          · rcases ih with heq | hmem
            · left
              simp [h5, hc, heq]
            · right
              simp only [h5, hc, if_true, if_false]
              simp [hc]
              exact Or.inr (by simpa using hmem)
        · by_cases h4 : s.id = 4
          · by_cases hc : c.stage = 4 ∧ c.isHellMode = true
            · right
              simp [h5, h4, hc]
            · rcases ih with heq | hmem
              · left
                simp [h5, h4, hc, heq]
              · right
                simp only [h5, h4, hc]
                simp [hc]
                exact Or.inr (by simpa using hmem)
          · by_cases hs : c.stage = s.id
            · right
              simp [h5, h4, hs]
            · rcases ih with heq | hmem
              · left
                simp [h5, h4, hs, heq]
              · right
                simp only [h5, h4, hs]
                simp [hs]
                exact Or.inr (by simpa using hmem)

/-- Witness for C1: a one-state schema whose branches both fail leaves
the seeded current state 42 unchanged. -/
theorem detector_returns_schema_id_or_previous_witness :
    getCurrentState
      [StateDef.mk 7 "seven" (some "flag === true") [DomCheck.visible "#seven"]]
      (PageContext.mk (fun _ => Outcome.raised) (fun _ => Outcome.failed))
      42 = 42 := by
  exact detector_returns_schema_id_or_previous.2.1
    [StateDef.mk 7 "seven" (some "flag === true") [DomCheck.visible "#seven"]]
    (PageContext.mk (fun _ => Outcome.raised) (fun _ => Outcome.failed))
    42
    (by intro s hs
        simp only [List.mem_singleton] at hs
        subst hs
        exact ⟨rfl, rfl⟩)

/-- C3: states are evaluated strictly in schema order; a state whose
variable condition is true returns immediately, before any later state is
consulted, and in general the detector returns the id of the first state
in schema order whose variable or DOM branch matches. -/
theorem detector_first_match_in_schema_order_wins :
    (∀ (s : StateDef) (rest : List StateDef) (ctx : PageContext)
        (prev : Int),
        varMatched ctx s = true →
        getCurrentState (s :: rest) ctx prev = s.id) ∧
    (∀ (schema : List StateDef) (ctx : PageContext) (prev : Int)
        (s : StateDef),
        List.find? (stateMatches ctx) schema = some s →
        getCurrentState schema ctx prev = s.id) := by
  constructor
  · intro s rest ctx prev hv
    simp [getCurrentState, hv]
  · intro schema ctx prev
    induction schema with
    | nil => intro s hs; cases hs
    | cons t rest ih =>
        intro s hs
        by_cases hm : stateMatches ctx t
        · rw [List.find?_cons_of_pos _ hm] at hs
          have ht : t = s := by injection hs
          subst ht
          have hm2 : varMatched ctx t = true ∨ domMatched ctx t = true := by
            simpa [stateMatches, Bool.or_eq_true] using hm
          rcases hm2 with hv | hd
          · simp [getCurrentState, hv]
          · by_cases hv : varMatched ctx t
            · simp [getCurrentState, hv]
            · simp [getCurrentState, hv, hd]
        · rw [List.find?_cons_of_neg _ hm] at hs
          have hm2 : varMatched ctx t = false ∧ domMatched ctx t = false := by
            simpa [stateMatches] using hm
          simp only [getCurrentState, hm2.1, hm2.2, if_false]
          exact ih s hs

/-- A context in which every condition expression evaluates to true: used
to exercise overlapping detection conditions. -/
def overlapCtx : PageContext :=
  PageContext.mk (fun _ => Outcome.matched) (fun _ => Outcome.raised)

/-- First of two states with overlapping (simultaneously true)
conditions. -/
def overlapStateOne : StateDef :=
  StateDef.mk 1 "one" (some "stage === 1") []

/-- Second of two states with overlapping (simultaneously true)
conditions. -/
def overlapStateTwo : StateDef :=
  StateDef.mk 2 "two" (some "stage >= 1") []

/-- Witness for C3: with two simultaneously-true conditions the first
state in schema order is returned. -/
theorem detector_first_match_in_schema_order_wins_witness :
    getCurrentState [overlapStateOne, overlapStateTwo] overlapCtx 0 = 1 := by
  exact detector_first_match_in_schema_order_wins.2
    [overlapStateOne, overlapStateTwo] overlapCtx 0 overlapStateOne rfl

/-- A one-state schema used to probe the DOM-fallback control flow. -/
def stateSeven : StateDef :=
  StateDef.mk 7 "seven" (some "flag === true") [DomCheck.visible "#seven"]

/-- A context in which every condition expression resolves all its
variables and evaluates conclusively to false, and every DOM conjunction
holds. -/
def ctxCondFalseDomTrue : PageContext :=
  PageContext.mk (fun _ => Outcome.failed) (fun _ => Outcome.matched)

/-- A context in which every condition expression evaluates conclusively
to false and every DOM conjunction evaluates to false. -/
def ctxCondFalseDomFalse : PageContext :=
  PageContext.mk (fun _ => Outcome.failed) (fun _ => Outcome.failed)

/-- Counterexample for C4: with the variable condition of `stateSeven`
evaluating conclusively to false (no variable absent, no exception), the
detector still consults the DOM branch — the result flips from the
previous state 99 to 7 purely according to the DOM outcome, which the
claim says must not be consulted in this situation. -/
theorem detector_dom_after_conclusive_false_cex :
    ctxCondFalseDomTrue.condOutcome "flag === true" = Outcome.failed ∧
    ctxCondFalseDomFalse.condOutcome "flag === true" = Outcome.failed ∧
    getCurrentState [stateSeven] ctxCondFalseDomTrue 99 = 7 ∧
    getCurrentState [stateSeven] ctxCondFalseDomFalse 99 = 99 := by
  refine ⟨rfl, rfl, ?_, ?_⟩
  · simp [getCurrentState, varMatched, domMatched, stateSeven,
      ctxCondFalseDomTrue]
  · simp [getCurrentState, varMatched, domMatched, stateSeven,
      ctxCondFalseDomFalse]

/-- C4 amended: the DOM branch of a state is consulted whenever the
variable-based evaluation of that state's condition does not return true
— both when it is inconclusive (a raise) and when it is conclusively
false; the state's outcome is then decided by the DOM branch alone. -/
theorem detector_dom_consulted_when_var_not_true :
    ∀ (s : StateDef) (rest : List StateDef) (ctx : PageContext)
      (prev : Int) (c : String),
      s.detection_condition = some c →
      ctx.condOutcome c ≠ Outcome.matched →
      getCurrentState (s :: rest) ctx prev =
        (if domMatched ctx s then s.id else getCurrentState rest ctx prev) := by
  intro s rest ctx prev c hc hne
  have hv : varMatched ctx s = false := by
    simp [varMatched, hc, hne]
  by_cases hd : domMatched ctx s
  · simp [getCurrentState, hv, hd]
  · simp [getCurrentState, hv, hd]

/-- Witness for C4 at a concrete schema and context. -/
theorem detector_dom_consulted_when_var_not_true_witness :
    getCurrentState [stateSeven] ctxCondFalseDomTrue 99 =
      (if domMatched ctxCondFalseDomTrue stateSeven then stateSeven.id
       else getCurrentState [] ctxCondFalseDomTrue 99) := by
  exact detector_dom_consulted_when_var_not_true stateSeven []
    ctxCondFalseDomTrue 99 "flag === true" rfl (by decide)

/-! ## Event replayer (replay_session.py) -/

/-- The sleep computed before one event of `SessionReplayer.replay`
(replay_session.py lines 81-88): the target elapsed time is the recorded
offset divided by the speed; only a positive shortfall against the
observed elapsed time is slept. -/
def replaySleep (speed elapsed timestamp : ℚ) : ℚ :=
  let target_time := timestamp / speed
  let wait_time := target_time - elapsed
  if wait_time > 0 then wait_time else 0

/-- The replay loop: `elapsedAt i` is the elapsed-since-start clock
reading observed at iteration `i`; every event is executed in order,
paired with the sleep performed before it. -/
def replayLoop (elapsedAt : Nat → ℚ) (speed : ℚ) :
    Nat → List RawEvent → List (ℚ × RawEvent)
  | _, [] => []
  | i, e :: rest =>
      (replaySleep speed (elapsedAt i) e.timestamp, e) ::
        replayLoop elapsedAt speed (i + 1) rest

/-- C7: the sleep before an event with recorded offset t at speed s and
observed elapsed time e equals max 0 (t / s - e); it is never negative; a
late event (target at or before the observed elapsed time) sleeps zero,
executing immediately; and the loop executes every event in order — none
is skipped. -/
theorem replay_sleep_max_zero_and_no_event_skipped :
    (∀ speed elapsed t : ℚ,
        replaySleep speed elapsed t = max 0 (t / speed - elapsed)) ∧
    (∀ speed elapsed t : ℚ, 0 ≤ replaySleep speed elapsed t) ∧
    (∀ speed elapsed t : ℚ, t / speed - elapsed ≤ 0 →
        replaySleep speed elapsed t = 0) ∧
    (∀ (elapsedAt : Nat → ℚ) (speed : ℚ) (i : Nat)
        (events : List RawEvent),
        (replayLoop elapsedAt speed i events).map Prod.snd = events) := by
  refine ⟨fun speed elapsed t => ?_, fun speed elapsed t => ?_,
    fun speed elapsed t h => ?_, fun elapsedAt speed i events => ?_⟩
  · simp only [replaySleep]
    rcases lt_or_le 0 (t / speed - elapsed) with h | h
    · rw [if_pos h, max_eq_right h.le]
    · rw [if_neg (not_lt.2 h), max_eq_left h]
  · simp only [replaySleep]
    split
    · linarith
    · exact le_refl 0
  · simp only [replaySleep]
    rw [if_neg (not_lt.2 h)]
  · induction events generalizing i with
    | nil => rfl
    | cons e rest ih =>
        simp only [replayLoop, List.map_cons]
        rw [ih]

/-- Witness for C7: an event that is half a second late sleeps exactly
zero. -/
theorem replay_sleep_max_zero_and_no_event_skipped_witness :
    replaySleep 2 1 1 = 0 := by
  exact replay_sleep_max_zero_and_no_event_skipped.2.2.1 2 1 1 (by norm_num)

/-! ## Snapshot store of the recorder (record_session.py)

`SessionRecorder.snapshots` is a Python dict keyed by state id.  The
snapshot payload is opaque to the store's bookkeeping, so it is a type
parameter here. -/

/-- Python dict assignment `d[k] = v`: replace the entry of an existing
key, otherwise append a new entry. -/
def dictSet {κ α : Type} [DecidableEq κ] (k : κ) (v : α) :
    List (κ × α) → List (κ × α)
  | [] => [(k, v)]
  | (k2, v2) :: rest =>
      if k2 = k then (k, v) :: rest else (k2, v2) :: dictSet k v rest

/-- Python dict lookup `d[k]` / membership test `k in d`. -/
def dictLookup {κ α : Type} [DecidableEq κ] (k : κ) :
    List (κ × α) → Option α
  | [] => none
  | (k2, v2) :: rest => if k2 = k then some v2 else dictLookup k rest

/-- The recorder's mutable snapshot bookkeeping: the snapshot dict and
`last_stage` (initially -1). -/
structure RecorderState (α : Type) where
  snapshots : List (Int × α)
  last_stage : Int

/-- One poll tick of `SessionRecorder._check_stage_change` (lines
291-322): when the detected state differs from `last_stage` and is
non-negative, store the captured snapshot (when capture succeeded) under
the detected id and update `last_stage`; otherwise change nothing. -/
def checkStageChange {α : Type} (st : RecorderState α)
    (current_state : Int) (captured : Option α) : RecorderState α :=
  if current_state ≠ st.last_stage ∧ current_state ≥ 0 then
    match captured with
    | some snap =>
        RecorderState.mk (dictSet current_state snap st.snapshots)
          current_state
    | none => RecorderState.mk st.snapshots current_state
  else st

/-- A whole recording session's snapshot bookkeeping: fold the poll loop
over the observed (detected state, captured snapshot) pairs starting from
the empty dict and `last_stage = -1`. -/
def runRecording {α : Type} (polls : List (Int × Option α)) :
    RecorderState α :=
  polls.foldl (fun st p => checkStageChange st p.1 p.2)
    (RecorderState.mk [] (-1))

/-- `SessionRecorder._save_snapshots` (lines 364-391): one file per
stored entry with a non-negative stage id; the file for stage k holds the
dict's entry for k. -/
def saveSnapshots {α : Type} (snapshots : List (Int × α)) :
    List (Int × α) :=
  snapshots.filter (fun kv => kv.1 ≥ 0)

theorem dictSet_fst_mem {α : Type} (k m : Int) (v : α) :
    ∀ l : List (Int × α),
      m ∈ (dictSet k v l).map Prod.fst ↔ m = k ∨ m ∈ l.map Prod.fst := by
  intro l
  induction l with
  | nil => simp [dictSet]
  | cons p rest ih =>
      obtain ⟨k2, v2⟩ := p
      by_cases hk : k2 = k
      · subst hk
        simp [dictSet]
      · simp only [dictSet, hk, if_false, List.map_cons, List.mem_cons, ih]
        tauto

theorem dictSet_keys_nodup {α : Type} (k : Int) (v : α) :
    ∀ l : List (Int × α), (l.map Prod.fst).Nodup →
      ((dictSet k v l).map Prod.fst).Nodup := by
  intro l
  induction l with
  | nil => intro _; simp [dictSet]
  | cons p rest ih =>
      obtain ⟨k2, v2⟩ := p
      intro h
      simp only [List.map_cons, List.nodup_cons] at h
      by_cases hk : k2 = k
      · subst hk
        simpa [dictSet] using h
      · simp only [dictSet, hk, if_false, List.map_cons, List.nodup_cons]
        refine ⟨?_, ih h.2⟩
        rw [dictSet_fst_mem]
        rintro (hkk | hmem)
        · exact hk hkk
        · exact h.1 hmem

theorem dictLookup_dictSet_self {α : Type} (k : Int) (v : α) :
    ∀ l : List (Int × α), dictLookup k (dictSet k v l) = some v := by
  intro l
  induction l with
  | nil => simp [dictSet, dictLookup]
  | cons p rest ih =>
      obtain ⟨k2, v2⟩ := p
      by_cases hk : k2 = k
      · simp [dictSet, hk, dictLookup]
      · simp [dictSet, hk, dictLookup, ih]

theorem dictLookup_filter_nonneg {α : Type} (k : Int) (hk : k ≥ 0) :
    ∀ l : List (Int × α),
      dictLookup k (saveSnapshots l) = dictLookup k l := by
  intro l
  induction l with
  | nil => rfl
  | cons p rest ih =>
      obtain ⟨k2, v2⟩ := p
      by_cases hkk : k2 = k
      · subst hkk
        simp [saveSnapshots, dictLookup, hk, List.filter_cons]
      · by_cases h2 : k2 ≥ 0
        · simpa [saveSnapshots, dictLookup, hkk, List.filter_cons, h2]
            using ih
        · simpa [saveSnapshots, dictLookup, hkk, List.filter_cons, h2]
            using ih

theorem runRecording_snapshots_nodup {α : Type}
    (polls : List (Int × Option α)) (st : RecorderState α)
    (h : (st.snapshots.map Prod.fst).Nodup) :
    (((polls.foldl (fun st p => checkStageChange st p.1 p.2)
        st).snapshots).map Prod.fst).Nodup := by
  induction polls generalizing st with
  | nil => exact h
  | cons p rest ih =>
      rw [List.foldl_cons]
      refine ih (checkStageChange st p.1 p.2) ?_
      unfold checkStageChange
      split
      · match p.2 with
        | some snap => exact dictSet_keys_nodup p.1 snap st.snapshots h
        | none => exact h
      · exact h

/-- C6: during one recording session the snapshot store keeps at most one
snapshot per state id; a re-entry into a state replaces that id's prior
snapshot with the newly captured one; and the file saved for a
non-negative state id at the end of the session holds exactly the store's
current (most recent) entry for that id. -/
theorem snapshot_store_one_entry_per_state_and_overwrite :
    (∀ (α : Type) (polls : List (Int × Option α)),
        (((runRecording polls).snapshots).map Prod.fst).Nodup) ∧
    (∀ (α : Type) (polls : List (Int × Option α)) (k : Int) (v : α),
        k ≥ 0 → k ≠ (runRecording polls).last_stage →
        dictLookup k
          ((runRecording (polls ++ [(k, some v)])).snapshots) = some v) ∧
    (∀ (α : Type) (polls : List (Int × Option α)) (k : Int), k ≥ 0 →
        dictLookup k (saveSnapshots (runRecording polls).snapshots) =
        dictLookup k (runRecording polls).snapshots) := by
  refine ⟨fun α polls => ?_, fun α polls k v hk hne => ?_,
    fun α polls k hk => ?_⟩
  · exact runRecording_snapshots_nodup polls _ List.nodup_nil
  · have hstep : runRecording (polls ++ [(k, some v)]) =
        checkStageChange (runRecording polls) k (some v) := by
      unfold runRecording
      rw [List.foldl_append]
      rfl
    rw [hstep]
    unfold checkStageChange
    rw [if_pos ⟨hne, hk⟩]
    exact dictLookup_dictSet_self k v _
  · exact dictLookup_filter_nonneg k hk _

/-- Witness for C6: a session that enters state 1, leaves for state 0 and
re-enters state 1 stores the re-entry snapshot for id 1, and the saved
file for id 1 holds that latest snapshot. -/
theorem snapshot_store_one_entry_per_state_and_overwrite_witness :
    dictLookup 1
      ((runRecording
        [((1 : Int), some (10 : ℕ)), (0, some 20), (1, some 30)]).snapshots)
      = some 30 := by
  have h : [((1 : Int), some (10 : ℕ)), (0, some 20), (1, some 30)] =
      [((1 : Int), some (10 : ℕ)), (0, some 20)] ++ [(1, some 30)] := rfl
  rw [h]
  exact snapshot_store_one_entry_per_state_and_overwrite.2.1 ℕ
    [(1, some 10), (0, some 20)] 1 30 (by norm_num) (by decide)

/-! ## Snapshot restore (playwright_recorder/test_stage.py, restore_state)

`restore_state` builds one JavaScript source text from the snapshot —
variable assignments, optionally a content-container overwrite and a
counter-display update — and evaluates it in the page in one shot.  A
string variable value is interpolated between single quotes verbatim
(`f"{var_name} = '{value}';"`, line 46, no escaping); only the DOM
fragment is escaped (line 61).  We model the emitted single-quoted
literal and the fragment of the JavaScript string-literal grammar it
relies on: an escape-free literal (interior without quote, backslash or
newline) denotes its interior verbatim; any other interior either
terminates the literal early, starts an escape denoting different
characters, or is a syntax error — in all three cases the captured
string is not reproduced verbatim, and a syntax error makes the whole
evaluated script a no-op. -/

/-- The single-quote character. -/
def singleQuote : Char := '\x27'

/-- A character that may appear verbatim inside a single-quoted
JavaScript string literal. -/
def jsCharSafe (c : Char) : Bool :=
  !(c == singleQuote) && !(c == '\\') && !(c == '\n')

/-- A captured string value round-trips through the unescaped
interpolation exactly when all its characters are literal-safe. -/
def jsStringSafe (s : String) : Bool := s.data.all jsCharSafe

/-- The literal text emitted for a string value: the raw captured string
between single quotes, with no escaping (test_stage.py line 46). -/
def encodeSingleQuoted (s : List Char) : List Char :=
  singleQuote :: s ++ [singleQuote]

/-- Reading an escape-free single-quoted literal back: succeeds with the
interior exactly when the text is quote-delimited and the interior is
literal-safe. -/
def decodeSingleQuoted : List Char → Option (List Char)
  | [] => none
  | c :: rest =>
      if c = singleQuote ∧ rest.getLast? = some singleQuote ∧
          rest.dropLast.all jsCharSafe = true then
        some rest.dropLast
      else none

/-- A captured value as the restore script sees it: a string, boolean or
number, or a composite (list or object) value carried by its
`json.dumps` serialization, which escapes correctly. -/
inductive JsValue where
  | str (s : String)
  | boolean (b : Bool)
  | num (q : ℚ)
  | composite (jsonDump : String)
  deriving DecidableEq, Repr

/-- One statement of the generated restore script. -/
inductive RestoreStmt where
  | setVar (name : String) (value : JsValue)
  | setDom (contentId : String) (html : String)
  | setCounter (counterId : String) (value : JsValue)
  deriving DecidableEq, Repr

/-- The configuration dict read by `restore_state`: the key-variable
list, the content container id and the counter element id. -/
structure RestoreConfig where
  variableList : List String
  content_id : String
  counter_id : String

/-- `INSTAGRAM_STATE` from instagram_config.py, restricted to the fields
`restore_state` reads. -/
def INSTAGRAM_STATE : RestoreConfig :=
  RestoreConfig.mk
    ["stage", "notificationCount", "tapCount", "notificationSpeed",
     "escapeAttempts", "rewardStreak", "totalRewards", "isHellMode",
     "urgentTimers"]
    "contentArea" "counter"

/-- A snapshot as loaded from disk: captured variable values keyed by
name, and optionally the serialized DOM fragment (the dict's `dom`
key). -/
structure Snapshot where
  vars : List (String × JsValue)
  dom : Option String

/-- The statement list of the generated restore script (test_stage.py
lines 38-67): one assignment per configured variable present in the
snapshot, then the content-container overwrite when a DOM fragment was
captured, then the counter-display update when `notificationCount` was
captured. -/
def buildRestoreScript (cfg : RestoreConfig) (snap : Snapshot) :
    List RestoreStmt :=
  (cfg.variableList.filterMap fun n =>
    (dictLookup n snap.vars).map (RestoreStmt.setVar n))
  ++ (match snap.dom with
      | some h => [RestoreStmt.setDom cfg.content_id h]
      | none => [])
  ++ (match dictLookup "notificationCount" snap.vars with
      | some v => [RestoreStmt.setCounter cfg.counter_id v]
      | none => [])

/-- Well-formedness of one emitted statement: a string value is
interpolated unescaped, so its literal must read back verbatim; boolean
and numeric values are unquoted literals and composite values go through
`json.dumps`, all well-formed; the DOM fragment is escaped by the code
and is well-formed. -/
def stmtWellFormed : RestoreStmt → Bool
  | .setVar _ (.str s) => (decodeSingleQuoted (encodeSingleQuoted s.data)).isSome
  | _ => true

/-- Python string interpolation of a value into the counter update
statement. -/
def pyInterp : JsValue → String
  | .str s => s
  | .boolean b => if b then "True" else "False"
  | .num q => toString q
  | .composite d => d

/-- The observable page state restore acts on: the resolvable page
variables, the content container's fragment and the counter display
text. -/
structure PageState where
  vars : String → Option JsValue
  contentHTML : String
  counterText : String

/-- Effect of one restore statement on the page. -/
def execStmt (st : PageState) : RestoreStmt → PageState
  | .setVar n v =>
      PageState.mk (fun m => if m = n then some v else st.vars m)
        st.contentHTML st.counterText
  | .setDom _ h => PageState.mk st.vars h st.counterText
  | .setCounter _ v => PageState.mk st.vars st.contentHTML (pyInterp v)

/-- `restore_state`: evaluate the generated script in one shot.  A
malformed script raises at parse time and changes nothing; a well-formed
script runs every statement in order. -/
def restore_state (cfg : RestoreConfig) (snap : Snapshot)
    (st : PageState) : PageState :=
  let stmts := buildRestoreScript cfg snap
  if stmts.all stmtWellFormed then stmts.foldl execStmt st else st


/-- The value of the last variable assignment to `n` of a statement
list, scanning from the left. -/
def lastVarWrite (n : String) : List RestoreStmt → Option JsValue
  | [] => none
  | stmt :: rest =>
      match lastVarWrite n rest with
      | some v => some v
      | none =>
          match stmt with
          | .setVar m v => if n = m then some v else none
          | _ => none

/-- The fragment of the last content-container overwrite of a statement
list. -/
def lastDomWrite : List RestoreStmt → Option String
  | [] => none
  | stmt :: rest =>
      match lastDomWrite rest with
      | some h => some h
      | none =>
          match stmt with
          | .setDom _ h => some h
          | _ => none

/-- The display text of the last counter update of a statement list. -/
def lastCounterWrite : List RestoreStmt → Option String
  | [] => none
  | stmt :: rest =>
      match lastCounterWrite rest with
      | some t => some t
      | none =>
          match stmt with
          | .setCounter _ v => some (pyInterp v)
          | _ => none

/-- Running a statement list sets each variable to its last assigned
value (untouched variables keep their prior value). -/
theorem foldl_execStmt_vars (n : String) :
    ∀ (l : List RestoreStmt) (st : PageState),
      (l.foldl execStmt st).vars n =
        (lastVarWrite n l).elim (st.vars n) some := by
  intro l
  induction l with
  | nil => intro st; rfl
  | cons stmt rest ih =>
      intro st
      rw [List.foldl_cons, ih]
      cases hlv : lastVarWrite n rest with
      | some v => simp [lastVarWrite, hlv]
      | none =>
          cases stmt with
          | setVar m v =>
              by_cases hm : n = m
              · subst hm
                simp [lastVarWrite, hlv, execStmt]
              · simp [lastVarWrite, hlv, execStmt, hm]
          | setDom cid h => simp [lastVarWrite, hlv, execStmt]
          | setCounter cid v => simp [lastVarWrite, hlv, execStmt]

/-- Running a statement list sets the content container to the last
overwritten fragment (or keeps the prior one). -/
theorem foldl_execStmt_contentHTML :
    ∀ (l : List RestoreStmt) (st : PageState),
      (l.foldl execStmt st).contentHTML =
        (lastDomWrite l).elim st.contentHTML id := by
  intro l
  induction l with
  | nil => intro st; rfl
  | cons stmt rest ih =>
      intro st
      rw [List.foldl_cons, ih]
      cases hld : lastDomWrite rest with
      | some h => simp [lastDomWrite, hld]
      | none =>
          cases stmt with
          | setVar m v => simp [lastDomWrite, hld, execStmt]
          | setDom cid h => simp [lastDomWrite, hld, execStmt]
          | setCounter cid v => simp [lastDomWrite, hld, execStmt]

/-- Running a statement list sets the counter display to the last
written text (or keeps the prior one). -/
theorem foldl_execStmt_counterText :
    ∀ (l : List RestoreStmt) (st : PageState),
      (l.foldl execStmt st).counterText =
        (lastCounterWrite l).elim st.counterText id := by
  intro l
  induction l with
  | nil => intro st; rfl
  | cons stmt rest ih =>
      intro st
      rw [List.foldl_cons, ih]
      cases hlc : lastCounterWrite rest with
      | some t => simp [lastCounterWrite, hlc]
      | none =>
          cases stmt with
          | setVar m v => simp [lastCounterWrite, hlc, execStmt]
          | setDom cid h => simp [lastCounterWrite, hlc, execStmt]
          | setCounter cid v => simp [lastCounterWrite, hlc, execStmt]

/-- Two page states with equal components are equal. -/
theorem PageState.eq_of_components {a b : PageState}
    (h1 : ∀ n, a.vars n = b.vars n) (h2 : a.contentHTML = b.contentHTML)
    (h3 : a.counterText = b.counterText) : a = b := by
  cases a
  cases b
  simp only [PageState.mk.injEq]
  exact ⟨funext h1, h2, h3⟩

/-- Running the same statement list twice gives the same page state as
running it once: every statement writes an absolute value, so the second
pass rewrites each field to what it already holds. -/
theorem foldl_execStmt_idem (l : List RestoreStmt) (st : PageState) :
    l.foldl execStmt (l.foldl execStmt st) = l.foldl execStmt st := by
  refine PageState.eq_of_components (fun n => ?_) ?_ ?_
  · rw [foldl_execStmt_vars, foldl_execStmt_vars]
    cases hlv : lastVarWrite n l with
    | some v => rfl
    | none => rfl
  · rw [foldl_execStmt_contentHTML, foldl_execStmt_contentHTML]
    cases hld : lastDomWrite l with
    | some h => rfl
    | none => rfl
  · rw [foldl_execStmt_counterText, foldl_execStmt_counterText]
    cases hlc : lastCounterWrite l with
    | some t => rfl
    | none => rfl

/-- C5: restore is idempotent — applying the same snapshot twice leaves
the page in exactly the state a single application produces: the same
resolvable variable values, the same content-container fragment and the
same counter display text, because the script is a full overwrite (and a
malformed script is a no-op both times). -/
theorem restore_state_idempotent (cfg : RestoreConfig) (snap : Snapshot)
    (st : PageState) :
    restore_state cfg snap (restore_state cfg snap st) =
      restore_state cfg snap st := by
  unfold restore_state
  by_cases h : (buildRestoreScript cfg snap).all stmtWellFormed
  · simp only [h, if_true, if_pos]
    exact foldl_execStmt_idem _ _
  · simp only [h, if_false, if_neg, Bool.false_eq_true, not_false_iff]

/-- Reading back the unescaped emitted literal succeeds with the original
interior exactly when every character is literal-safe. -/
theorem decode_encode_singleQuoted (s : List Char) :
    decodeSingleQuoted (encodeSingleQuoted s) =
      if s.all jsCharSafe then some s else none := by
  show (if singleQuote = singleQuote ∧
        (s ++ [singleQuote]).getLast? = some singleQuote ∧
        (s ++ [singleQuote]).dropLast.all jsCharSafe = true then
          some (s ++ [singleQuote]).dropLast
        else none) =
      if s.all jsCharSafe then some s else none
  rw [List.getLast?_concat, List.dropLast_concat]
  by_cases h : s.all jsCharSafe = true
  · rw [if_pos ⟨rfl, rfl, h⟩, if_pos h]
  · rw [if_neg ?_, if_neg h]
    rintro ⟨-, -, hc⟩
    exact h hc

/-- A configured variable captured with a literal-unsafe string value
makes the whole generated script malformed, so its one-shot evaluation
raises and changes nothing. -/
theorem restore_state_unsafe_string_noop (cfg : RestoreConfig)
    (snap : Snapshot) (st : PageState) (n : String) (s : String)
    (hn : n ∈ cfg.variableList)
    (hl : dictLookup n snap.vars = some (JsValue.str s))
    (hs : jsStringSafe s = false) :
    restore_state cfg snap st = st := by
  have hmem : RestoreStmt.setVar n (JsValue.str s) ∈
      buildRestoreScript cfg snap := by
    unfold buildRestoreScript
    refine List.mem_append.2 (Or.inl (List.mem_append.2 (Or.inl ?_)))
    exact List.mem_filterMap.2 ⟨n, hn, by rw [hl]; rfl⟩
  have hwf : stmtWellFormed (RestoreStmt.setVar n (JsValue.str s))
      = false := by
    simp only [stmtWellFormed]
    rw [decode_encode_singleQuoted]
    have hd : s.data.all jsCharSafe = false := hs
    rw [hd]
    rfl
  have hall : (buildRestoreScript cfg snap).all stmtWellFormed = false := by
    cases hb : (buildRestoreScript cfg snap).all stmtWellFormed with
    | false => rfl
    | true =>
        have := List.all_eq_true.1 hb _ hmem
        rw [hwf] at this
        cases this
  unfold restore_state
  simp [hall]

/-- A captured string value containing a single quote. -/
def quotedName : String := "it" ++ String.mk [singleQuote] ++ "s"

/-- A snapshot whose captured `stage` value is a string containing a
single quote. -/
def badSnapshot : Snapshot :=
  Snapshot.mk [("stage", JsValue.str quotedName)] none

/-- A page with no resolvable variables and empty container and counter
displays. -/
def emptyPage : PageState := PageState.mk (fun _ => none) "" ""

/-- C10: a string variable value is interpolated between single quotes
with no escaping, so it is reproduced verbatim exactly when it contains
no single quote, backslash or newline; a configured variable whose
captured string is literal-unsafe makes the generated script malformed
and the restore a no-op; in particular the snapshot capturing the string
value it
with an embedded single quote is not reproduced — the restore leaves the
page unchanged. -/
theorem restore_unescaped_string_interpolation :
    (∀ s : String,
        decodeSingleQuoted (encodeSingleQuoted s.data) = some s.data ↔
        jsStringSafe s = true) ∧
    (∀ (cfg : RestoreConfig) (snap : Snapshot) (st : PageState)
        (n s : String),
        n ∈ cfg.variableList →
        dictLookup n snap.vars = some (JsValue.str s) →
        jsStringSafe s = false →
        restore_state cfg snap st = st) ∧
    (jsStringSafe quotedName = false ∧
     restore_state INSTAGRAM_STATE badSnapshot emptyPage = emptyPage ∧
     (restore_state INSTAGRAM_STATE badSnapshot emptyPage).vars "stage" ≠
       some (JsValue.str quotedName)) := by
  have hmain : ∀ (cfg : RestoreConfig) (snap : Snapshot) (st : PageState)
      (n s : String),
      n ∈ cfg.variableList →
      dictLookup n snap.vars = some (JsValue.str s) →
      jsStringSafe s = false →
      restore_state cfg snap st = st :=
    fun cfg snap st n s hn hl hs =>
      restore_state_unsafe_string_noop cfg snap st n s hn hl hs
  have hbad : restore_state INSTAGRAM_STATE badSnapshot emptyPage =
      emptyPage :=
    hmain INSTAGRAM_STATE badSnapshot emptyPage "stage" quotedName
      (by decide) rfl (by decide)
  refine ⟨fun s => ?_, hmain, by decide, hbad, ?_⟩
  · rw [decode_encode_singleQuoted]
    constructor
    · intro h
      cases hsafe : s.data.all jsCharSafe with
      | false => rw [hsafe] at h; cases h
      | true => exact hsafe
    · intro h
      have hd : s.data.all jsCharSafe = true := h
      rw [hd, if_pos rfl]
  · rw [hbad]
    intro h
    cases h

/-- Witness for C10: the concrete quote-bearing snapshot leaves the page
untouched. -/
theorem restore_unescaped_string_interpolation_witness :
    restore_state INSTAGRAM_STATE badSnapshot emptyPage = emptyPage := by
  exact restore_unescaped_string_interpolation.2.1 INSTAGRAM_STATE
    badSnapshot emptyPage "stage" quotedName (by decide) rfl (by decide)

/-! ## Schema validation (state_analyzer.py, _validate_states_json)

`_validate_states_json` receives parsed JSON, so the model carries the
Python value shapes JSON can produce.  The whole body runs under
`try/except Exception: return False`, and the per-state loop uses the
Python `in` operator, whose meaning depends on the container type (dict
key, substring, list membership) and raises TypeError on
non-containers. -/

inductive PyVal where
  | pyNone
  | boolean (b : Bool)
  | num (q : ℚ)
  | str (s : String)
  | list (xs : List PyVal)
  | dict (kvs : List (String × PyVal))

/-- Whether `needle` occurs as a contiguous sublist of the haystack:
Python substring containment. -/
def subListOf (needle : List Char) : List Char → Bool
  | [] => needle.isEmpty
  | c :: rest => needle.isPrefixOf (c :: rest) || subListOf needle rest

/-- Python `field in x` for a string `field`: dict key containment,
substring containment, list membership (string equality; `==` against a
non-string element is False); any other operand raises TypeError,
modelled as `none`. -/
def pyIn (field : String) : PyVal → Option Bool
  | .dict kvs => some (dictLookup field kvs).isSome
  | .str s => some (subListOf field.data s.data)
  | .list xs =>
      some (xs.any fun v =>
        match v with
        | .str s => s = field
        | _ => false)
  | _ => Option.none

/-- The per-state required fields (state_analyzer.py line 241). -/
def requiredStateFields : List String :=
  ["id", "name", "description", "color_theme"]

/-- The inner loop `for field in required_fields: if field not in state:
return False`: stops at the first missing field; a TypeError propagates
(`none`). -/
def fieldsPresent (state : PyVal) : List String → Option Bool
  | [] => some true
  | f :: rest =>
      match pyIn f state with
      | Option.none => Option.none
      | some false => some false
      | some true => fieldsPresent state rest

/-- The outer loop `for state in states`: stops at the first state with a
missing field; a TypeError propagates. -/
def statesFieldsOk : List PyVal → Option Bool
  | [] => some true
  | st :: rest =>
      match fieldsPresent st requiredStateFields with
      | Option.none => Option.none
      | some false => some false
      | some true => statesFieldsOk rest

/-- The metadata checks of `_validate_states_json` (lines 224-229):
metadata must be a dict containing `total_states`. -/
def checkMetadata : PyVal → Bool
  | PyVal.dict mkvs => (dictLookup "total_states" mkvs).isSome
  | _ => false

/-- The states checks of `_validate_states_json` (lines 232-244): states
must be a non-empty list whose every element carries the required
fields. -/
def checkStates : PyVal → Bool
  | PyVal.list sts =>
      if sts.length = 0 then false
      else
        match statesFieldsOk sts with
        | some true => true
        | _ => false
  | _ => false

/-- `StateDetectionAnalyzer._validate_states_json` (lines 205-249): the
top level must be a dict with `metadata` and `states` keys, the metadata
checks and the states checks must pass in that order, and any exception
yields False.  No check compares state ids with one another. -/
def validate_states_json (data : PyVal) : Bool :=
  match data with
  | PyVal.dict kvs =>
      match dictLookup "metadata" kvs, dictLookup "states" kvs with
      | some metadata, some states =>
          if checkMetadata metadata then checkStates states else false
      | _, _ => false
  | _ => false

/-- A state dict with all required fields and id 0, name "A". -/
def dupStateA : List (String × PyVal) :=
  [("id", PyVal.num 0), ("name", PyVal.str "A"),
   ("description", PyVal.str "first"), ("color_theme", PyVal.str "blue")]

/-- A second state dict with all required fields and the SAME id 0. -/
def dupStateB : List (String × PyVal) :=
  [("id", PyVal.num 0), ("name", PyVal.str "B"),
   ("description", PyVal.str "second"), ("color_theme", PyVal.str "red")]

/-- A schema whose two states share the id 0. -/
def dupIdSchema : PyVal :=
  PyVal.dict
    [("metadata", PyVal.dict [("total_states", PyVal.num 2)]),
     ("states", PyVal.list [PyVal.dict dupStateA, PyVal.dict dupStateB])]

/-- Counterexample for C8: a schema whose two states both carry id 0 —
a duplicate state id — is accepted by the validator, which performs no
uniqueness check on ids. -/
theorem validate_accepts_duplicate_state_ids :
    validate_states_json dupIdSchema = true ∧
    dictLookup "id" dupStateA = some (PyVal.num 0) ∧
    dictLookup "id" dupStateB = some (PyVal.num 0) :=
  ⟨rfl, rfl, rfl⟩

/-- A passing `fieldsPresent` run means every listed field is present. -/
theorem fieldsPresent_all (state : PyVal) :
    ∀ (l : List String), fieldsPresent state l = some true →
      ∀ f ∈ l, pyIn f state = some true := by
  intro l
  induction l with
  | nil => intro _ f hf; cases hf
  | cons g rest ih =>
      intro h f hf
      rcases List.mem_cons.1 hf with hf | hf
      · subst hf
        cases hg : pyIn f state with
        | none => rw [fieldsPresent, hg] at h; cases h
        | some b =>
            cases b with
            | false => rw [fieldsPresent, hg] at h; cases h
            | true => rfl
      · cases hg : pyIn g state with
        | none => rw [fieldsPresent, hg] at h; cases h
        | some b =>
            cases b with
            | false => rw [fieldsPresent, hg] at h; cases h
            | true =>
                rw [fieldsPresent, hg] at h
                exact ih h f hf

/-- A passing `statesFieldsOk` run means every state passed. -/
theorem statesFieldsOk_all :
    ∀ (sts : List PyVal), statesFieldsOk sts = some true →
      ∀ st ∈ sts, fieldsPresent st requiredStateFields = some true := by
  intro sts
  induction sts with
  | nil => intro _ st hst; cases hst
  | cons t rest ih =>
      intro h st hst
      cases ht : fieldsPresent t requiredStateFields with
      | none => rw [statesFieldsOk, ht] at h; cases h
      | some b =>
          cases b with
          | false => rw [statesFieldsOk, ht] at h; cases h
          | true =>
              rcases List.mem_cons.1 hst with hst | hst
              · subst hst; exact ht
              · rw [statesFieldsOk, ht] at h
                exact ih h st hst

/-- C8 amended: the validator rejects (returns False, which the caller
turns into a raised ValueError before any detection is attempted) every
schema whose top level is not a dict with `metadata` and `states`, whose
metadata lacks `total_states`, whose state list is empty or not a list,
or in which some state misses a required field — equivalently, an
accepted schema has all of these properties.  It performs NO duplicate-id
check (see the counterexample). -/
theorem validate_accepted_schema_shape (data : PyVal)
    (h : validate_states_json data = true) :
    ∃ kvs mkvs sts,
      data = PyVal.dict kvs ∧
      dictLookup "metadata" kvs = some (PyVal.dict mkvs) ∧
      (dictLookup "total_states" mkvs).isSome = true ∧
      dictLookup "states" kvs = some (PyVal.list sts) ∧
      sts ≠ [] ∧
      ∀ st ∈ sts, ∀ f ∈ requiredStateFields, pyIn f st = some true := by
  cases data with
  | dict kvs =>
      cases hm : dictLookup "metadata" kvs with
      | none =>
          have h2 : validate_states_json (PyVal.dict kvs) = false := by
            simp [validate_states_json, hm]
          rw [h2] at h
          cases h
      | some metadata =>
          cases hs : dictLookup "states" kvs with
          | none =>
              have h2 : validate_states_json (PyVal.dict kvs) = false := by
                simp [validate_states_json, hm, hs]
              rw [h2] at h
              cases h
          | some states =>
              have h2 : (if checkMetadata metadata then checkStates states
                  else false) = true := by
                rw [validate_states_json, hm, hs] at h
                exact h
              by_cases hcm : checkMetadata metadata
              · rw [if_pos hcm] at h2
                cases metadata with
                | dict mkvs =>
                    cases states with
                    | list sts =>
                        by_cases hlen : sts.length = 0
                        · rw [checkStates, if_pos hlen] at h2
                          cases h2
                        · refine ⟨kvs, mkvs, sts, rfl, hm, hcm, hs, ?_, ?_⟩
                          · intro hnil
                            exact hlen (by rw [hnil]; rfl)
                          · rw [checkStates, if_neg hlen] at h2
                            cases hok : statesFieldsOk sts with
                            | none => rw [hok] at h2; cases h2
                            | some b =>
                                cases b with
                                | false => rw [hok] at h2; cases h2
                                | true =>
                                    intro st hst f hf
                                    exact fieldsPresent_all st
                                      requiredStateFields
                                      (statesFieldsOk_all sts hok st hst)
                                      f hf
                    | pyNone => simp [checkStates] at h2
                    | boolean b => simp [checkStates] at h2
                    | num q => simp [checkStates] at h2
                    | str t => simp [checkStates] at h2
                    | dict kvs2 => simp [checkStates] at h2
                | pyNone => simp [checkMetadata] at hcm
                | boolean b => simp [checkMetadata] at hcm
                | num q => simp [checkMetadata] at hcm
                | str t => simp [checkMetadata] at hcm
                | list xs => simp [checkMetadata] at hcm
              · rw [if_neg hcm] at h2
                cases h2
  | pyNone => cases h
  | boolean b => cases h
  | num q => cases h
  | str t => cases h
  | list xs => cases h


/-- A well-formed one-state schema. -/
def goodSchema : PyVal :=
  PyVal.dict
    [("metadata", PyVal.dict [("total_states", PyVal.num 1)]),
     ("states", PyVal.list [PyVal.dict dupStateA])]

/-- Witness for C8: the accepted one-state schema has the validated
shape. -/
theorem validate_accepted_schema_shape_witness :
    ∃ kvs mkvs sts,
      goodSchema = PyVal.dict kvs ∧
      dictLookup "metadata" kvs = some (PyVal.dict mkvs) ∧
      (dictLookup "total_states" mkvs).isSome = true ∧
      dictLookup "states" kvs = some (PyVal.list sts) ∧
      sts ≠ [] ∧
      ∀ st ∈ sts, ∀ f ∈ requiredStateFields, pyIn f st = some true := by
  exact validate_accepted_schema_shape goodSchema rfl
